import Mathlib

/-!
Shallow embedding of the bevy_notify reactive subscription layer.

The repository attaches per-component-type subscription markers
(NotifyAdded C, NotifyChanged C, NotifyRemoved C) to monitor entities,
together with an optional self-watch tag (MonitorSelf) and an optional
Monitoring edge (Monitor target).  Three dispatch routines
(notify_on_add in src/addition.rs, watch_for_change in src/mutation.rs,
notify_on_remove in src/removal.rs) turn a raw lifecycle signal for a
component type C on a subject entity into the list of notifications
raised, each carrying the observing monitor and the subject.

Entities are modelled as natural numbers.  The portion of the ECS world
the dispatch routines query is modelled as a list of rows, one row per
entity that carries any of the relevant tags; the queries of the source
translate to filters over that list.  Deferred commands of the
register/teardown hooks are modelled explicitly as a queue, because the
hooks read the live world but write through the queue.
-/

namespace BevyNotify

/-- Entities are opaque identifiers; we use naturals. -/
abbrev Entity := Nat

/-- One row of the ECS world, restricted to the tags the dispatch
routines of the source query for a fixed component type C:
the three subscription markers, the MonitorSelf tag and the Monitor
relationship target. -/
structure EntityRow where
  id : Entity
  notifyAdded : Bool
  notifyChanged : Bool
  notifyRemoved : Bool
  monitorSelf : Bool
  monitor : Option Entity
deriving DecidableEq

/-- The part of the world visible to the dispatch queries. -/
abbrev World := List EntityRow

/-- A raised notification: the source events Addition C, Mutation C and
Removal C all carry the observing entity (field entity) and the entity
whose component changed (fields added, mutated, removed; here uniformly
subject). -/
structure Notif where
  entity : Entity
  subject : Entity
deriving DecidableEq

/-- Well-formedness of the modelled world: entity identifiers are
unique (each entity has one row), and no Monitoring edge is reflexive.
Non-reflexivity is guaranteed by the store: Monitor is a bevy
relationship and, as the doc comment of Monitor in src/monitors.rs
records, a relationship cannot be self-referential. -/
def WellFormed (w : World) : Prop :=
  (w.map EntityRow.id).Nodup ∧ ∀ r ∈ w, r.monitor ≠ some r.id

instance (w : World) : Decidable (WellFormed w) := by
  unfold WellFormed
  infer_instance

/-! ## Attach channel: notify_on_add (src/addition.rs) -/

/-- Embeds the query local_monitors.contains of notify_on_add:
does the subject entity itself carry NotifyAdded C and MonitorSelf. -/
def localContainsAdd (w : World) (e : Entity) : Bool :=
  w.any fun r => r.id == e && r.notifyAdded && r.monitorSelf

/-- Embeds the related tier of notify_on_add: the monitors query
(Entity, Monitor) with NotifyAdded C, filtered to edges whose target is
the subject; each hit raises (monitor, target). -/
def relatedTierAdd (w : World) (e : Entity) : List Notif :=
  w.filterMap fun r =>
    match r.monitor with
    | some t => if r.notifyAdded && t == e then some ⟨r.id, t⟩ else none
    | none => none

/-- Embeds the global tier of notify_on_add: every entity carrying
NotifyAdded C with neither a Monitor edge nor MonitorSelf is notified
about the subject. -/
def globalTierAdd (w : World) (e : Entity) : List Notif :=
  (w.filter fun r => r.notifyAdded && !r.monitor.isSome && !r.monitorSelf).map
    fun r => ⟨r.id, e⟩

/-- Embedding of notify_on_add: the observer body, run once per Add
event of C on entity e, in source order: self tier, related tier,
global tier. -/
def notify_on_add (w : World) (e : Entity) : List Notif :=
  (if localContainsAdd w e then [⟨e, e⟩] else []) ++
    relatedTierAdd w e ++ globalTierAdd w e

/-! ## Mutate channel: watch_for_change (src/mutation.rs) -/

/-- Embeds membership in the local_monitors query of watch_for_change:
the entity carries NotifyChanged C and MonitorSelf. -/
def isLocalChangeMonitor (w : World) (e : Entity) : Bool :=
  w.any fun r => r.id == e && r.notifyChanged && r.monitorSelf

/-- Embeds local_monitors.iter_many(changed.iter()): the changed
entities that are themselves local monitors, each raising a
notification on itself. -/
def localTierChange (w : World) (changed : List Entity) : List Notif :=
  (changed.filter (isLocalChangeMonitor w)).map fun e => ⟨e, e⟩

/-- Embeds the related tier of watch_for_change: monitors with a
Monitor edge whose target is in the changed set. -/
def relatedTierChange (w : World) (changed : List Entity) : List Notif :=
  w.filterMap fun r =>
    match r.monitor with
    | some t => if r.notifyChanged && changed.contains t then some ⟨r.id, t⟩ else none
    | none => none

/-- Embeds the global tier of watch_for_change: each subscriber with
neither tag is notified once per changed entity. -/
def globalTierChange (w : World) (changed : List Entity) : List Notif :=
  ((w.filter fun r => r.notifyChanged && !r.monitorSelf && !r.monitor.isSome).map
    fun r => changed.map fun e => (⟨r.id, e⟩ : Notif)).flatten

/-- Embedding of watch_for_change: the per-tick system of the mutate
channel.  Its changed argument embeds the Populated query on
Changed C: the set of entities whose C was written since the last run
of the system, each listed once however many writes occurred. -/
def watch_for_change (w : World) (changed : List Entity) : List Notif :=
  localTierChange w changed ++ relatedTierChange w changed ++
    globalTierChange w changed

/-! ## Detach channel: notify_on_remove (src/removal.rs) -/

/-- Embeds the query local_monitors.contains of notify_on_remove. -/
def localContainsRemove (w : World) (e : Entity) : Bool :=
  w.any fun r => r.id == e && r.notifyRemoved && r.monitorSelf

/-- Embeds the related tier of notify_on_remove. -/
def relatedTierRemove (w : World) (e : Entity) : List Notif :=
  w.filterMap fun r =>
    match r.monitor with
    | some t => if r.notifyRemoved && t == e then some ⟨r.id, t⟩ else none
    | none => none

/-- Embeds the global tier of notify_on_remove. -/
def globalTierRemove (w : World) (e : Entity) : List Notif :=
  (w.filter fun r => r.notifyRemoved && !r.monitor.isSome && !r.monitorSelf).map
    fun r => ⟨r.id, e⟩

/-- Embedding of notify_on_remove: the observer body run once per
Remove event of C on entity e.  Remove observers run before the
removal is applied, so w is the pre-removal world: the tags of the
detaching entity, and the removed component itself, are still
visible. -/
def notify_on_remove (w : World) (e : Entity) : List Notif :=
  (if localContainsRemove w e then [⟨e, e⟩] else []) ++
    relatedTierRemove w e ++ globalTierRemove w e

/-! ## Watcher lifecycle: registration and teardown hooks
(src/addition.rs NotifyAdded; src/mutation.rs NotifyChanged and
src/removal.rs NotifyRemoved have the same count-and-teardown
structure). -/

/-- A deferred command queued by a hook.  The hooks run on a
DeferredWorld: they read the live world but their writes
(add_observer, insert_resource, the queued teardown closure) only take
effect when the command queue is next applied. -/
inductive Cmd where
  | spawnObserver (o : Entity)
  | insertRecord (o : Entity)
  | teardown
deriving DecidableEq

/-- State of the per-type watcher lifecycle for one component type C:
the entities currently carrying the subscription marker (live world),
the DetectingAdded C resource (the installation record, holding the
observer entity), the observer entities spawned for this type, the
pending command queue, and the id allocator for commands-spawned
entities (Commands reserves the entity id immediately, the spawn
itself is deferred). -/
structure LifeState where
  subscribers : List Entity
  record : Option Entity
  observers : List Entity
  queue : List Cmd
  nextId : Entity
deriving DecidableEq

/-- Applies one deferred command.  insertRecord overwrites any
existing resource, as insert_resource does.  teardown embeds the
queued closure of remove_component_add_observer: it unwraps the
record (None on a missing record models the unwrap panic) and
despawns the observer it names (None models the despawn panic on a
dead entity). -/
def applyCmd (s : LifeState) (c : Cmd) : Option LifeState :=
  match c with
  | .spawnObserver o => some { s with observers := s.observers ++ [o] }
  | .insertRecord o => some { s with record := some o }
  | .teardown =>
      match s.record with
      | some o =>
          if s.observers.contains o then
            some { s with record := none, observers := s.observers.erase o }
          else none
      | none => none

/-- Applies the pending command queue in order. -/
def flush (s : LifeState) : Option LifeState :=
  s.queue.foldlM applyCmd { s with queue := [] }

/-- Embedding of NotifyAdded::register_component_add_observer, the
on_add hook of the marker.  It checks the live world for the
DetectingAdded C resource; if absent it spawns the notify_on_add
observer and inserts the record, both through deferred commands. -/
def register_component_add_observer (s : LifeState) : LifeState :=
  if s.record.isSome then s
  else
    { s with
      queue := s.queue ++ [Cmd.spawnObserver s.nextId, Cmd.insertRecord s.nextId]
      nextId := s.nextId + 1 }

/-- Embedding of NotifyAdded::remove_component_add_observer, the
on_remove hook of the marker.  total_reactive is the live count of
entities carrying the marker; if it is zero the hook queues the
teardown closure.  The hook runs while the marker is still on the
detaching entity (remove hooks and Remove observers run before the
removal is applied), so subscribers still lists that entity here. -/
def remove_component_add_observer (s : LifeState) : LifeState :=
  let total_reactive := s.subscribers.length
  if total_reactive == 0 then { s with queue := s.queue ++ [Cmd.teardown] }
  else s

/-- Attaching the marker to entity m through a top-level world
operation: the component is added, the on_add hook runs, and the
command queue is applied when the operation completes. -/
def attachMarker (s : LifeState) (m : Entity) : Option LifeState :=
  flush (register_component_add_observer { s with subscribers := s.subscribers ++ [m] })

/-- Detaching the marker from entity m through a top-level world
operation: the on_remove hook runs first (with the marker still
visible), then the component is removed, then the queue is applied. -/
def detachMarker (s : LifeState) (m : Entity) : Option LifeState :=
  let s1 := remove_component_add_observer s
  flush { s1 with subscribers := s1.subscribers.erase m }

/-- Attaching the marker to several entities in one batch: every
on_add hook runs before any queued command is applied, and the queue
is applied once at the end of the batch. -/
def batchAttachMarkers (s : LifeState) (ms : List Entity) : Option LifeState :=
  flush (ms.foldl
    (fun s m => register_component_add_observer { s with subscribers := s.subscribers ++ [m] })
    s)

/-- The lifecycle state of a world in which no entity has ever carried
the marker for C. -/
def initLife : LifeState :=
  { subscribers := [], record := none, observers := [], queue := [], nextId := 0 }

/-! ## Relationship model: the Monitor edge -/

/-- State of the Monitor relationship for all entities: the list of
(monitor, target) edges, at most one outgoing edge per monitor. -/
structure RelState where
  edges : List (Entity × Entity)
deriving DecidableEq

/-- Modelled from the spec: the relationship storage primitive
SetTarget of section 4.1 and section 6 is provided by the external
store (the bevy relationship machinery behind the relationship
attribute on Monitor in src/monitors.rs, not code under src/).
Setting a target replaces the existing outgoing edge of the monitor,
and, per the Monitor doc comment (a relationship cannot be
self-referential) and the spec (an edge is not reflexive), naming the
monitor itself as target establishes no edge. -/
def setTarget (s : RelState) (m t : Entity) : RelState :=
  if m = t then s
  else { edges := (s.edges.filter fun p => p.1 != m) ++ [(m, t)] }

/-- Modelled from the spec: ClearTarget removes the outgoing edge of
the monitor. -/
def clearTarget (s : RelState) (m : Entity) : RelState :=
  { edges := s.edges.filter fun p => p.1 != m }

/-- The relationship states reachable from an empty store through
SetTarget and ClearTarget. -/
inductive RelReachable : RelState → Prop where
  | init : RelReachable ⟨[]⟩
  | set (s : RelState) (m t : Entity) : RelReachable s → RelReachable (setTarget s m t)
  | clear (s : RelState) (m : Entity) : RelReachable s → RelReachable (clearTarget s m)

/-! ## Store change tracking for the mutate channel -/

/-- The slice of the external store the mutate channel consumes: which
entities currently have component C, and which entities had C written
in the current tick. -/
structure Store where
  hasC : List Entity
  changedThisTick : List Entity
deriving DecidableEq

/-- Modelled from the spec: the external store primitive
AttachState(entity, C) of section 6 together with bevy change
detection as consumed by the Changed C query of watch_for_change in
src/mutation.rs: inserting a component counts as a change, so
attaching C to e marks e changed for the current tick. -/
def attachC (st : Store) (e : Entity) : Store :=
  { hasC := st.hasC ++ [e], changedThisTick := st.changedThisTick ++ [e] }

/-! ## List-level helper lemmas for the counting arguments -/

theorem countP_filterMap_eq {α β : Type} (f : α → Option β) (p : β → Bool)
    (l : List α) :
    (l.filterMap f).countP p = l.countP fun a => ((f a).map p).getD false := by
  induction l with
  | nil => rfl
  | cons a l ih =>
    rw [List.filterMap_cons]
    cases h : f a with
    | none => simpa [List.countP_cons, h] using ih
    | some b => simp [List.countP_cons, h, ih]

theorem countP_unique_row (q : EntityRow → Bool) :
    ∀ (w : World) (rM : EntityRow),
      (w.map EntityRow.id).Nodup → rM ∈ w →
      (∀ r ∈ w, q r = true → r.id = rM.id) →
      w.countP q = if q rM then 1 else 0 := by
  intro w
  induction w with
  | nil => intro rM _ hm; cases hm
  | cons a l ih =>
    intro rM hn hm hq
    have hn2 : (a.id :: l.map EntityRow.id).Nodup := by simpa using hn
    have hhead := (List.nodup_cons.mp hn2).1
    have htail := (List.nodup_cons.mp hn2).2
    rw [List.countP_cons]
    rcases List.mem_cons.mp hm with h | h
    · subst h
      have hzero : l.countP q = 0 := by
        rw [List.countP_eq_zero]
        intro r hr hqr
        have hid : r.id = rM.id := hq r (List.mem_cons_of_mem _ hr) hqr
        exact hhead (hid ▸ List.mem_map_of_mem _ hr)
      rw [hzero]
      simp
    · have hqa : q a = false := by
        by_contra hq2
        have hq3 : q a = true := by simpa using hq2
        have hid : a.id = rM.id := hq a (List.mem_cons_self a l) hq3
        exact hhead (hid ▸ List.mem_map_of_mem _ h)
      rw [hqa]
      simpa using ih rM htail h fun r hr h2 => hq r (List.mem_cons_of_mem _ hr) h2

/-- Rows of a well-formed world are determined by their entity id. -/
theorem row_eq_of_id_eq {w : World} (hn : (w.map EntityRow.id).Nodup)
    {r1 r2 : EntityRow} (h1 : r1 ∈ w) (h2 : r2 ∈ w) (h : r1.id = r2.id) :
    r1 = r2 :=
  List.inj_on_of_nodup_map hn h1 h2 h

/-- Characterisation of membership in a related tier: the three
related tiers share the shape filterMap over the world. -/
theorem of_mem_relatedShape {sel : EntityRow → Bool} {cond : Entity → Bool}
    {w : World} {n : Notif}
    (hn : n ∈ w.filterMap fun r =>
      match r.monitor with
      | some t => if sel r && cond t then some ⟨r.id, t⟩ else none
      | none => none) :
    ∃ r ∈ w, sel r = true ∧ r.monitor = some n.subject ∧
      cond n.subject = true ∧ n.entity = r.id := by
  rcases List.mem_filterMap.mp hn with ⟨r, hr, hf⟩
  cases hmon : r.monitor with
  | none => rw [hmon] at hf; cases hf
  | some t =>
    rw [hmon] at hf
    have hf2 : (if sel r && cond t then some (⟨r.id, t⟩ : Notif) else none) = some n := hf
    by_cases hc : (sel r && cond t) = true
    · rw [if_pos hc] at hf2
      have hnt : n = ⟨r.id, t⟩ := by
        cases hf2
        rfl
      subst hnt
      exact ⟨r, hr, (Bool.and_eq_true .. ▸ hc).1, hmon,
        (Bool.and_eq_true .. ▸ hc).2, rfl⟩
    · rw [if_neg hc] at hf2
      cases hf2

/-- Characterisation of membership in the singular-subject global
tiers (attach and detach channels). -/
theorem of_mem_globalShape {pr : EntityRow → Bool} {w : World} {e : Entity}
    {n : Notif} (hn : n ∈ (w.filter pr).map fun r => (⟨r.id, e⟩ : Notif)) :
    ∃ r ∈ w, pr r = true ∧ n = ⟨r.id, e⟩ := by
  rcases List.mem_map.mp hn with ⟨r, hr, hf⟩
  exact ⟨r, (List.mem_filter.mp hr).1, (List.mem_filter.mp hr).2, hf.symm⟩

/-- Characterisation of membership in the global tier of the mutate
channel. -/
theorem of_mem_globalTierChange {w : World} {changed : List Entity} {n : Notif}
    (hn : n ∈ globalTierChange w changed) :
    ∃ r ∈ w, (r.notifyChanged && !r.monitorSelf && !r.monitor.isSome) = true ∧
      n.entity = r.id ∧ n.subject ∈ changed := by
  rcases List.mem_flatten.mp hn with ⟨l, hl, hnl⟩
  rcases List.mem_map.mp hl with ⟨r, hr, hf⟩
  subst hf
  rcases List.mem_map.mp hnl with ⟨e, he, hf⟩
  subst hf
  exact ⟨r, (List.mem_filter.mp hr).1, (List.mem_filter.mp hr).2, rfl, he⟩

/-- The local tier of the mutate channel emits exactly one
notification on a changed local monitor: the changed set lists each
entity once. -/
theorem localChange_count_self {w : World} {changed : List Entity} {M : Entity}
    (hnd : changed.Nodup) (hM : M ∈ changed)
    (hloc : isLocalChangeMonitor w M = true) :
    (localTierChange w changed).countP
      (fun n => n.entity == M && n.subject == M) = 1 := by
  unfold localTierChange
  rw [List.countP_map, List.countP_filter]
  have hcong : changed.countP
      (fun a => ((fun n : Notif => n.entity == M && n.subject == M) ∘
        fun e => (⟨e, e⟩ : Notif)) a && isLocalChangeMonitor w a) =
      changed.countP (· == M) := by
    apply List.countP_congr
    intro x hx
    constructor
    · intro hcount
      simp only [Function.comp] at hcount
      simp only [Bool.and_eq_true, beq_iff_eq] at hcount
      simp [hcount.1.1]
    · intro hxm
      have hx2 : x = M := by simpa using hxm
      subst hx2
      simp [Function.comp, hloc]
  rw [hcong]
  have hcnt := List.count_eq_one_of_mem hnd hM
  rw [List.count] at hcnt
  exact hcnt

/-- The local tier of the mutate channel emits no notification whose
observer and subject differ. -/
theorem localChange_count_ne {w : World} {changed : List Entity} {M S : Entity}
    (hMS : M ≠ S) :
    (localTierChange w changed).countP
      (fun n => n.entity == M && n.subject == S) = 0 := by
  rw [List.countP_eq_zero]
  intro n hn hp
  rcases List.mem_map.mp hn with ⟨e, _, hf⟩
  subst hf
  simp only [Bool.and_eq_true, beq_iff_eq] at hp
  exact hMS (hp.1 ▸ hp.2)

/-- A related tier never emits a notification whose observer equals
its subject: that would need a reflexive Monitoring edge. -/
theorem relatedShape_count_self_zero {sel : EntityRow → Bool}
    {cond : Entity → Bool} {w : World} {M : Entity}
    (hrefl : ∀ r ∈ w, r.monitor ≠ some r.id) :
    ((w.filterMap fun r =>
      match r.monitor with
      | some t => if sel r && cond t then some (⟨r.id, t⟩ : Notif) else none
      | none => none).countP fun n => n.entity == M && n.subject == M) = 0 := by
  rw [List.countP_eq_zero]
  intro n hn hp
  rcases of_mem_relatedShape hn with ⟨r, hr, _, hmon, _, hent⟩
  simp only [Bool.and_eq_true, beq_iff_eq] at hp
  exact hrefl r hr (by rw [hmon, hp.2, ← hp.1, hent])

/-- A related tier emits exactly one notification for a monitor whose
edge condition matches: the monitor has one row in the world. -/
theorem relatedShape_count_one {sel : EntityRow → Bool} {cond : Entity → Bool}
    {w : World} {M T : Entity} {rM : EntityRow}
    (hnodup : (w.map EntityRow.id).Nodup) (hm : rM ∈ w) (hid : rM.id = M)
    (hsel : sel rM = true) (hmon : rM.monitor = some T) (hcond : cond T = true) :
    ((w.filterMap fun r =>
      match r.monitor with
      | some t => if sel r && cond t then some (⟨r.id, t⟩ : Notif) else none
      | none => none).countP fun n => n.entity == M && n.subject == T) = 1 := by
  have hcomp : ∀ r : EntityRow,
      ((match r.monitor with
        | some t => if sel r && cond t then some (⟨r.id, t⟩ : Notif) else none
        | none => none).map fun n : Notif => n.entity == M && n.subject == T).getD
          false = true → r.id = M := by
    intro r h
    cases hrmon : r.monitor with
    | none => rw [hrmon] at h; simp at h
    | some t =>
      rw [hrmon] at h
      have h2 : (Option.map (fun n : Notif => n.entity == M && n.subject == T)
          (if sel r && cond t then some (⟨r.id, t⟩ : Notif) else none)).getD
            false = true := h
      by_cases hc : (sel r && cond t) = true
      · rw [if_pos hc] at h2
        simp only [Option.map_some', Option.getD_some, Bool.and_eq_true,
          beq_iff_eq] at h2
        exact h2.1
      · rw [if_neg hc] at h2
        simp at h2
  rw [countP_filterMap_eq]
  rw [countP_unique_row _ w rM hnodup hm
    (fun r hr h => by rw [hid]; exact hcomp r h)]
  have hqM : ((match rM.monitor with
      | some t => if sel rM && cond t then some (⟨rM.id, t⟩ : Notif) else none
      | none => none).map fun n : Notif => n.entity == M && n.subject == T).getD
        false = true := by
    rw [hmon]
    simp [hsel, hcond, hid]
  rw [if_pos hqM]

/-- A singular-subject global tier emits nothing for an observer that
no globally-eligible row names. -/
theorem globalShape_count_zero {pr : EntityRow → Bool} {w : World}
    {e M S : Entity} (h : ∀ r ∈ w, pr r = true → ¬ r.id = M) :
    (((w.filter pr).map fun r => (⟨r.id, e⟩ : Notif)).countP
      fun n => n.entity == M && n.subject == S) = 0 := by
  rw [List.countP_eq_zero]
  intro n hn hp
  rcases of_mem_globalShape hn with ⟨r, hr, hpr, hf⟩
  simp only [Bool.and_eq_true, beq_iff_eq] at hp
  exact h r hr hpr (by rw [← hp.1, hf])

/-- The global tier of the mutate channel emits nothing for an
observer that no globally-eligible row names. -/
theorem globalChange_count_zero {w : World} {changed : List Entity} {M S : Entity}
    (h : ∀ r ∈ w, (r.notifyChanged && !r.monitorSelf && !r.monitor.isSome) = true →
      ¬ r.id = M) :
    ((globalTierChange w changed).countP
      fun n => n.entity == M && n.subject == S) = 0 := by
  rw [List.countP_eq_zero]
  intro n hn hp
  rcases of_mem_globalTierChange hn with ⟨r, hr, hpr, hent, _⟩
  simp only [Bool.and_eq_true, beq_iff_eq] at hp
  exact h r hr hpr (by rw [← hp.1, hent])

/-! ## Claims -/

/-- C2: for every entity M carrying the subscription marker for C and
the self-watch flag, a tick in which C on M was written (however many
times: the Changed query lists M once) yields exactly one Mutation
notification with observer M and subject M. -/
theorem mutation_coalesced_per_tick (w : World) (changed : List Entity)
    (rM : EntityRow) (M : Entity) (hwf : WellFormed w) (hm : rM ∈ w)
    (hid : rM.id = M) (hc : rM.notifyChanged = true) (hs : rM.monitorSelf = true)
    (hnd : changed.Nodup) (hM : M ∈ changed) :
    (watch_for_change w changed).countP
      (fun n => n.entity == M && n.subject == M) = 1 := by
  obtain ⟨hnodup, hrefl⟩ := hwf
  unfold watch_for_change
  rw [List.countP_append, List.countP_append]
  have hloc : isLocalChangeMonitor w M = true := by
    unfold isLocalChangeMonitor
    rw [List.any_eq_true]
    exact ⟨rM, hm, by simp [hid, hc, hs]⟩
  have h1 := @localChange_count_self w changed M hnd hM hloc
  have h2 : (relatedTierChange w changed).countP
      (fun n => n.entity == M && n.subject == M) = 0 := by
    unfold relatedTierChange
    exact relatedShape_count_self_zero hrefl
  have h3 : (globalTierChange w changed).countP
      (fun n => n.entity == M && n.subject == M) = 0 := by
    apply globalChange_count_zero
    intro r hr hpr hrid
    have hre : r = rM := row_eq_of_id_eq hnodup hr hm (by rw [hrid, hid])
    rw [hre, hs] at hpr
    simp at hpr
  rw [h1, h2, h3]

/-- Witness for C2 at a concrete world and tick. -/
theorem mutation_coalesced_per_tick_witness :
    WellFormed [⟨3, false, true, false, true, none⟩] ∧
    (watch_for_change [⟨3, false, true, false, true, none⟩] [3, 5]).countP
      (fun n => n.entity == 3 && n.subject == 3) = 1 :=
  ⟨by decide, mutation_coalesced_per_tick _ _ ⟨3, false, true, false, true, none⟩ 3
    (by decide) (by decide) rfl rfl rfl (by decide) (by decide)⟩

/-- C3: for every monitor M carrying the subscription marker for C and
having neither the self-watch flag nor a Monitoring edge, every
attach, mutate or detach of C on any entity E yields a notification
with observer M and subject E; and only entities with neither flag nor
edge participate in the global tier. -/
theorem global_tier_all_channels (w : World) (rM : EntityRow) (e : Entity)
    (changed : List Entity) (hm : rM ∈ w) (hself : rM.monitorSelf = false)
    (hmon : rM.monitor = none) :
    (rM.notifyAdded = true → Notif.mk rM.id e ∈ notify_on_add w e) ∧
    (rM.notifyChanged = true → e ∈ changed →
      Notif.mk rM.id e ∈ watch_for_change w changed) ∧
    (rM.notifyRemoved = true → Notif.mk rM.id e ∈ notify_on_remove w e) ∧
    (∀ n ∈ globalTierAdd w e,
      ∃ r ∈ w, r.id = n.entity ∧ r.monitorSelf = false ∧ r.monitor = none) ∧
    (∀ n ∈ globalTierChange w changed,
      ∃ r ∈ w, r.id = n.entity ∧ r.monitorSelf = false ∧ r.monitor = none) ∧
    (∀ n ∈ globalTierRemove w e,
      ∃ r ∈ w, r.id = n.entity ∧ r.monitorSelf = false ∧ r.monitor = none) := by
  refine ⟨fun ha => ?_, fun hc he => ?_, fun hr => ?_, fun n hn => ?_,
    fun n hn => ?_, fun n hn => ?_⟩
  · have hg : Notif.mk rM.id e ∈ globalTierAdd w e :=
      List.mem_map_of_mem _ (List.mem_filter.mpr ⟨hm, by simp [ha, hself, hmon]⟩)
    exact List.mem_append_right _ hg
  · have hg : Notif.mk rM.id e ∈ globalTierChange w changed := by
      refine List.mem_flatten.mpr ⟨changed.map fun x => (⟨rM.id, x⟩ : Notif),
        List.mem_map_of_mem _ (List.mem_filter.mpr ⟨hm, by simp [hc, hself, hmon]⟩),
        List.mem_map_of_mem _ he⟩
    exact List.mem_append_right _ hg
  · have hg : Notif.mk rM.id e ∈ globalTierRemove w e :=
      List.mem_map_of_mem _ (List.mem_filter.mpr ⟨hm, by simp [hr, hself, hmon]⟩)
    exact List.mem_append_right _ hg
  · rcases of_mem_globalShape hn with ⟨r, hr, hp, hf⟩
    refine ⟨r, hr, by rw [hf], ?_, ?_⟩
    · have := (Bool.and_eq_true .. ▸ hp).2
      simpa using this
    · have := (Bool.and_eq_true .. ▸ (Bool.and_eq_true .. ▸ hp).1).2
      cases hh : r.monitor with
      | none => rfl
      | some t => rw [hh] at this; simp at this
  · rcases of_mem_globalTierChange hn with ⟨r, hr, hp, hent, _⟩
    refine ⟨r, hr, hent.symm, ?_, ?_⟩
    · have := (Bool.and_eq_true .. ▸ (Bool.and_eq_true .. ▸ hp).1).2
      simpa using this
    · have := (Bool.and_eq_true .. ▸ hp).2
      cases hh : r.monitor with
      | none => rfl
      | some t => rw [hh] at this; simp at this
  · rcases of_mem_globalShape hn with ⟨r, hr, hp, hf⟩
    refine ⟨r, hr, by rw [hf], ?_, ?_⟩
    · have := (Bool.and_eq_true .. ▸ hp).2
      simpa using this
    · have := (Bool.and_eq_true .. ▸ (Bool.and_eq_true .. ▸ hp).1).2
      cases hh : r.monitor with
      | none => rfl
      | some t => rw [hh] at this; simp at this

/-- Witness for C3 at a concrete world: entity 4 subscribes to all
three channels with neither flag nor edge and entity 9 is the
subject. -/
theorem global_tier_all_channels_witness :
    (⟨4, true, true, true, false, none⟩ : EntityRow).monitorSelf = false ∧
    Notif.mk 4 9 ∈ notify_on_add [⟨4, true, true, true, false, none⟩] 9 :=
  ⟨rfl, (global_tier_all_channels [⟨4, true, true, true, false, none⟩]
    ⟨4, true, true, true, false, none⟩ 9 [9] (by decide) rfl rfl).1 rfl⟩

/-- C1: the tiers are additive, not mutually exclusive: a monitor M
carrying the subscription marker, the self-watch flag and a Monitoring
edge to T receives, from one tick in which both M and T were mutated,
one self notification (observer M, subject M) and one related
notification (observer M, subject T). -/
theorem additive_tiers (w : World) (rM : EntityRow) (M T : Entity)
    (hwf : WellFormed w) (hm : rM ∈ w) (hid : rM.id = M)
    (hc : rM.notifyChanged = true) (hs : rM.monitorSelf = true)
    (hmon : rM.monitor = some T) :
    (watch_for_change w [M, T]).countP
      (fun n => n.entity == M && n.subject == M) = 1 ∧
    (watch_for_change w [M, T]).countP
      (fun n => n.entity == M && n.subject == T) = 1 := by
  obtain ⟨hnodup, hrefl⟩ := hwf
  have hTM : T ≠ M := fun h => hrefl rM hm (by rw [hmon, h, hid])
  have hloc : isLocalChangeMonitor w M = true := by
    unfold isLocalChangeMonitor
    rw [List.any_eq_true]
    exact ⟨rM, hm, by simp [hid, hc, hs]⟩
  constructor
  · unfold watch_for_change
    rw [List.countP_append, List.countP_append]
    have h1 := @localChange_count_self w [M, T] M
      (by simp [Ne.symm hTM]) (by simp) hloc
    have h2 : (relatedTierChange w [M, T]).countP
        (fun n => n.entity == M && n.subject == M) = 0 := by
      unfold relatedTierChange
      exact relatedShape_count_self_zero hrefl
    have h3 : (globalTierChange w [M, T]).countP
        (fun n => n.entity == M && n.subject == M) = 0 := by
      apply globalChange_count_zero
      intro r hr hpr hrid
      have hre : r = rM := row_eq_of_id_eq hnodup hr hm (by rw [hrid, hid])
      rw [hre, hs] at hpr
      simp at hpr
    rw [h1, h2, h3]
  · unfold watch_for_change
    rw [List.countP_append, List.countP_append]
    have h1 := @localChange_count_ne w [M, T] M T (Ne.symm hTM)
    have h2 : (relatedTierChange w [M, T]).countP
        (fun n => n.entity == M && n.subject == T) = 1 := by
      unfold relatedTierChange
      exact relatedShape_count_one hnodup hm hid hc hmon (by simp)
    have h3 : (globalTierChange w [M, T]).countP
        (fun n => n.entity == M && n.subject == T) = 0 := by
      apply globalChange_count_zero
      intro r hr hpr hrid
      have hre : r = rM := row_eq_of_id_eq hnodup hr hm (by rw [hrid, hid])
      rw [hre, hmon] at hpr
      simp at hpr
    rw [h1, h2, h3]

/-- Witness for C1 at a concrete world: entity 0 self-watches and
monitors entity 1; both are mutated in the same tick. -/
theorem additive_tiers_witness :
    WellFormed [⟨0, false, true, false, true, some 1⟩] ∧
    (watch_for_change [⟨0, false, true, false, true, some 1⟩] [0, 1]).countP
      (fun n => n.entity == 0 && n.subject == 0) = 1 ∧
    (watch_for_change [⟨0, false, true, false, true, some 1⟩] [0, 1]).countP
      (fun n => n.entity == 0 && n.subject == 1) = 1 :=
  ⟨by decide,
    additive_tiers _ ⟨0, false, true, false, true, some 1⟩ 0 1 (by decide)
      (by decide) rfl rfl rfl rfl⟩

/-- C4: a monitor M with the subscription marker for C and a
Monitoring edge to T receives exactly one Addition notification with
observer M and subject T when C is attached to T, and the related tier
never notifies M when C is attached to any entity other than T. -/
theorem related_tier_addition (w : World) (rM : EntityRow) (M T : Entity)
    (hwf : WellFormed w) (hm : rM ∈ w) (hid : rM.id = M)
    (ha : rM.notifyAdded = true) (hmon : rM.monitor = some T) :
    (notify_on_add w T).countP (fun n => n.entity == M && n.subject == T) = 1 ∧
    ∀ e, e ≠ T → ∀ n ∈ relatedTierAdd w e, n.entity ≠ M := by
  obtain ⟨hnodup, hrefl⟩ := hwf
  have hTM : T ≠ M := fun h => hrefl rM hm (by rw [hmon, h, hid])
  constructor
  · unfold notify_on_add
    rw [List.countP_append, List.countP_append]
    have h1 : (if localContainsAdd w T then [(⟨T, T⟩ : Notif)] else []).countP
        (fun n => n.entity == M && n.subject == T) = 0 := by
      cases hb : localContainsAdd w T
      · simp
      · simp [hTM]
    have h2 : (relatedTierAdd w T).countP
        (fun n => n.entity == M && n.subject == T) = 1 := by
      unfold relatedTierAdd
      exact relatedShape_count_one hnodup hm hid ha hmon (by simp)
    have h3 : (globalTierAdd w T).countP
        (fun n => n.entity == M && n.subject == T) = 0 := by
      unfold globalTierAdd
      apply globalShape_count_zero
      intro r hr hpr hrid
      have hre : r = rM := row_eq_of_id_eq hnodup hr hm (by rw [hrid, hid])
      rw [hre, hmon] at hpr
      simp at hpr
    rw [h1, h2, h3]
  · intro e he n hn heq
    unfold relatedTierAdd at hn
    rcases of_mem_relatedShape hn with ⟨r, hr, _, hrmon, hcond, hent⟩
    have hsub : n.subject = e := by simpa using hcond
    have hre : r = rM := row_eq_of_id_eq hnodup hr hm (by rw [← hent, heq, hid])
    rw [hre, hmon] at hrmon
    rw [hsub] at hrmon
    exact he (by injection hrmon with h; exact h.symm)

/-- Witness for C4 at a concrete world: entity 2 monitors entity 7. -/
theorem related_tier_addition_witness :
    WellFormed [⟨2, true, false, false, false, some 7⟩] ∧
    (notify_on_add [⟨2, true, false, false, false, some 7⟩] 7).countP
      (fun n => n.entity == 2 && n.subject == 7) = 1 ∧
    ∀ e, e ≠ 7 →
      ∀ n ∈ relatedTierAdd [⟨2, true, false, false, false, some 7⟩] e,
        n.entity ≠ 2 :=
  ⟨by decide,
    related_tier_addition _ ⟨2, true, false, false, false, some 7⟩ 2 7
      (by decide) (by decide) rfl rfl rfl⟩

/-- C8: the detach channel is resolved on the pre-removal world (the
Remove observer runs before the removal is applied, so the self-watch
flag and the subscription marker of the detaching entity are still
visible), hence an entity that detaches C from itself while
self-watching C receives exactly one Removal notification with
observer and subject both equal to itself. -/
theorem self_removal_still_notified (w : World) (rE : EntityRow) (e : Entity)
    (hwf : WellFormed w) (hm : rE ∈ w) (hid : rE.id = e)
    (hr : rE.notifyRemoved = true) (hs : rE.monitorSelf = true) :
    (notify_on_remove w e).countP
      (fun n => n.entity == e && n.subject == e) = 1 := by
  obtain ⟨hnodup, hrefl⟩ := hwf
  unfold notify_on_remove
  rw [List.countP_append, List.countP_append]
  have hb : localContainsRemove w e = true := by
    unfold localContainsRemove
    rw [List.any_eq_true]
    exact ⟨rE, hm, by simp [hid, hr, hs]⟩
  have h1 : (if localContainsRemove w e then [(⟨e, e⟩ : Notif)] else []).countP
      (fun n => n.entity == e && n.subject == e) = 1 := by
    rw [hb]
    simp
  have h2 : (relatedTierRemove w e).countP
      (fun n => n.entity == e && n.subject == e) = 0 := by
    unfold relatedTierRemove
    exact relatedShape_count_self_zero hrefl
  have h3 : (globalTierRemove w e).countP
      (fun n => n.entity == e && n.subject == e) = 0 := by
    unfold globalTierRemove
    apply globalShape_count_zero
    intro r hrw hpr hrid
    have hre : r = rE := row_eq_of_id_eq hnodup hrw hm (by rw [hrid, hid])
    rw [hre, hs] at hpr
    simp at hpr
  rw [h1, h2, h3]

/-- Witness for C8 at a concrete world: entity 6 self-watches removal
of C and C is detached from entity 6. -/
theorem self_removal_still_notified_witness :
    WellFormed [⟨6, false, false, true, true, none⟩] ∧
    (notify_on_remove [⟨6, false, false, true, true, none⟩] 6).countP
      (fun n => n.entity == 6 && n.subject == 6) = 1 :=
  ⟨by decide,
    self_removal_still_notified _ ⟨6, false, false, true, true, none⟩ 6
      (by decide) (by decide) rfl rfl rfl⟩

/-- C7: while an installation record for C exists (and no commands are
pending), attaching the subscription marker to a further entity only
records the new subscriber: the installation record, the set of
spawned detectors and the command queue are unchanged, so no second
detector is created. -/
theorem reinstall_is_noop (s : LifeState) (o m : Entity)
    (h1 : s.record = some o) (h2 : s.queue = []) :
    attachMarker s m = some { s with subscribers := s.subscribers ++ [m] } := by
  unfold attachMarker register_component_add_observer flush
  simp [h1, h2]

/-- Witness for C7: a state with one subscriber and a live record. -/
theorem reinstall_is_noop_witness :
    (⟨[5], some 0, [0], [], 1⟩ : LifeState).record = some 0 ∧
    attachMarker ⟨[5], some 0, [0], [], 1⟩ 9 =
      some ⟨[5, 9], some 0, [0], [], 1⟩ :=
  ⟨rfl, reinstall_is_noop ⟨[5], some 0, [0], [], 1⟩ 0 9 rfl rfl⟩

/-- C5 fails on the code: the teardown hook counts the entities that
carry the marker while the detaching entity still carries it (remove
hooks run before the removal is applied, the same ordering the detach
channel relies on), so after installing the detector by attaching the
marker to entity 7 and then removing that last marker, the count seen
by the hook is 1, the teardown is never queued, and the installation
record (some 0) and the detector observer (entity 0) remain
installed. -/
theorem last_detach_leaves_detector_installed :
    (attachMarker initLife 7).bind (fun s => detachMarker s 7) =
      some { subscribers := [], record := some 0, observers := [0],
             queue := [], nextId := 1 } := by
  decide

/-- C6 fails on the code: the register hook checks for the record on
the live world but inserts it through a deferred command, so when the
marker is attached to entities 1 and 2 in one batch (both hooks run
before the queue is applied) both hooks pass the check: two detector
observers (entities 0 and 1) are spawned and the second record insert
overwrites the first, leaving a leaked detector. -/
theorem batch_attach_spawns_two_observers :
    batchAttachMarkers initLife [1, 2] =
      some { subscribers := [1, 2], record := some 1, observers := [0, 1],
             queue := [], nextId := 2 } := by
  decide

/-- C9: in every relationship state reachable through SetTarget and
ClearTarget, no Monitoring edge names its own monitor as target:
the edge is never reflexive. -/
theorem monitor_edge_not_reflexive (s : RelState) (h : RelReachable s) :
    ∀ p ∈ s.edges, p.1 ≠ p.2 := by
  induction h with
  | init =>
    intro p hp
    exact absurd hp (List.not_mem_nil p)
  | set s m t hs ih =>
    intro p hp
    unfold setTarget at hp
    by_cases hmt : m = t
    · rw [if_pos hmt] at hp
      exact ih p hp
    · rw [if_neg hmt] at hp
      rcases List.mem_append.mp hp with h1 | h1
      · exact ih p (List.mem_filter.mp h1).1
      · have hpe : p = (m, t) := by simpa using h1
        rw [hpe]
        exact hmt
  | clear s m hs ih =>
    intro p hp
    exact ih p (List.mem_filter.mp hp).1

/-- Witness for C9: a reachable state built by a reflexive SetTarget
attempt, a clear, and an ordinary SetTarget; its single edge (4, 5) is
not reflexive. -/
theorem monitor_edge_not_reflexive_witness :
    (setTarget (clearTarget (setTarget ⟨[]⟩ 3 3) 9) 4 5).edges = [(4, 5)] ∧
    ((4, 5) : Entity × Entity).1 ≠ ((4, 5) : Entity × Entity).2 :=
  ⟨by decide,
    monitor_edge_not_reflexive _
      (RelReachable.set _ 4 5
        (RelReachable.clear _ 9 (RelReachable.set _ 3 3 RelReachable.init)))
      (4, 5) (by decide)⟩

/-- C10: attaching C to entity e marks e changed for the tick, so the
next run of watch_for_change raises a Mutation notification with
subject e for every subscriber whose tier matches e (self, related or
global), in addition to the attach-channel notification. -/
theorem attach_fires_mutation_next_tick (w : World) (st : Store)
    (rM : EntityRow) (e : Entity) (hm : rM ∈ w) (hc : rM.notifyChanged = true)
    (ht : (rM.monitorSelf = true ∧ rM.id = e) ∨ rM.monitor = some e ∨
      (rM.monitorSelf = false ∧ rM.monitor = none)) :
    ∃ n ∈ watch_for_change w (attachC st e).changedThisTick,
      n.entity = rM.id ∧ n.subject = e := by
  have he : e ∈ (attachC st e).changedThisTick := by simp [attachC]
  rcases ht with ⟨hs, hid⟩ | hmon | ⟨hs, hmon⟩
  · refine ⟨⟨e, e⟩, ?_, hid.symm, rfl⟩
    unfold watch_for_change
    apply List.mem_append_left
    apply List.mem_append_left
    unfold localTierChange
    refine List.mem_map.mpr ⟨e, List.mem_filter.mpr ⟨he, ?_⟩, rfl⟩
    unfold isLocalChangeMonitor
    rw [List.any_eq_true]
    exact ⟨rM, hm, by simp [hid, hc, hs]⟩
  · refine ⟨⟨rM.id, e⟩, ?_, rfl, rfl⟩
    unfold watch_for_change
    apply List.mem_append_left
    apply List.mem_append_right
    unfold relatedTierChange
    refine List.mem_filterMap.mpr ⟨rM, hm, ?_⟩
    rw [hmon]
    have hcont : (attachC st e).changedThisTick.contains e = true := by
      simp [attachC]
    simp only [hc, hcont, Bool.and_self, if_pos]
  · refine ⟨⟨rM.id, e⟩, ?_, rfl, rfl⟩
    unfold watch_for_change
    apply List.mem_append_right
    unfold globalTierChange
    refine List.mem_flatten.mpr
      ⟨_, List.mem_map.mpr ⟨rM,
        List.mem_filter.mpr ⟨hm, by simp [hc, hs, hmon]⟩, rfl⟩,
        List.mem_map.mpr ⟨e, he, rfl⟩⟩

/-- Witness for C10: a global subscriber (entity 8) and C freshly
attached to entity 2. -/
theorem attach_fires_mutation_next_tick_witness :
    (⟨8, false, true, false, false, none⟩ : EntityRow).notifyChanged = true ∧
    ∃ n ∈ watch_for_change [⟨8, false, true, false, false, none⟩]
        (attachC ⟨[], []⟩ 2).changedThisTick,
      n.entity = 8 ∧ n.subject = 2 :=
  ⟨rfl,
    attach_fires_mutation_next_tick [⟨8, false, true, false, false, none⟩]
      ⟨[], []⟩ ⟨8, false, true, false, false, none⟩ 2 (by decide) rfl
      (Or.inr (Or.inr ⟨rfl, rfl⟩))⟩

end BevyNotify
